import Mathlib

/-!
Verification of the zakat nisab-monitoring core: the balance-history ledger,
the consecutive-month eligibility engine (`check_hijri_year_threshold` in
`zakat_monitor.py`), the payment recorder, the encrypted ledger store
(`app/storage/history.py` and `ZakatMonitor._load_balance_history`), and the
period-end selection of the balance-reading normalizer
(`process_multi_account_statements` / `_process_all_sources`).

Money values (Python floats) are modelled as rationals.  Python string
comparison (used for timestamps and dates) is code-point lexicographic and is
modelled by an explicit boolean comparison on the character lists.
-/

/-- Python string `<` on code points: lexicographic comparison of char lists,
mirroring CPython's `str.__lt__`. -/
def charListLt : List Char → List Char → Bool
  | [], [] => false
  | [], _ :: _ => true
  | _ :: _, [] => false
  | a :: as, b :: bs =>
      if a.toNat < b.toNat then true
      else if b.toNat < a.toNat then false
      else charListLt as bs

/-- Python `s1 < s2` for strings. -/
def strLtB (a b : String) : Bool := charListLt a.data b.data

-- --- Constants (zakat_monitor.py lines 27-32) ---

def ZAKAT_RATE : ℚ := 0.025

def MAX_HISTORY_MONTHS : Nat := 24

def HIJRI_YEAR_MONTHS : Nat := 12

/-- A ledger entry (`HistoryRecord`): either a balance observation dict built in
`check_hijri_year_threshold`, or a payment-marker dict built in
`record_zakat_payment` (`type: 'zakat_paid'`).  Both variants carry
`gregorian_date` and `timestamp`; the hijri fields come from
`convert_gregorian_to_hijri` via `.get`, hence may be absent. -/
inductive Entry where
  | obs (balance nisab_threshold : ℚ) (above_nisab : Bool)
        (hijri_year hijri_month : Option Int) (gregorian_date timestamp : String)
  | marker (timestamp gregorian_date : String)
  deriving Repr, DecidableEq

/-- `entry.get('gregorian_date', '')`: both variants store the key. -/
def Entry.gregorian_date : Entry → String
  | .obs _ _ _ _ _ d _ => d
  | .marker _ d => d

/-- `entry['timestamp']`: both variants store the key. -/
def Entry.timestamp : Entry → String
  | .obs _ _ _ _ _ _ ts => ts
  | .marker ts _ => ts

/-- True on an observation flagged `above_nisab`; false on a below-threshold
observation and on a payment marker (the two ways the backward walk stops). -/
def Entry.counted : Entry → Bool
  | .obs _ _ above _ _ _ _ => above
  | .marker _ _ => false

/-- Result of `convert_gregorian_to_hijri`: always carries the input
`gregorian_date`; the hijri fields are present only when conversion worked. -/
structure DateInfo where
  hijri_year : Option Int
  hijri_month : Option Int
  gregorian_date : String
  deriving Repr, DecidableEq

/-- The persisted `year_progress_override` configuration value
(schema: `enabled`, `months_above_nisab` with 0 ≤ months ≤ 11). -/
structure YearProgressOverride where
  enabled : Bool
  months_above_nisab : Nat
  deriving Repr, DecidableEq

/-- The `AnalysisResult` TypedDict returned by `check_hijri_year_threshold`. -/
structure AnalysisResult where
  bank_balance : ℚ
  additional_assets : ℚ
  total_assets : ℚ
  nisab_threshold : ℚ
  above_nisab : Bool
  consecutive_months_above_nisab : Nat
  hijri_year_complete : Bool
  zakat_due : Bool
  zakat_amount : ℚ
  deriving Repr, DecidableEq

-- --- The eligibility engine (check_hijri_year_threshold, lines 1104-1170) ---

/-- Deduplication plus append (lines 1122-1126): drop every existing entry —
observation or marker alike, both carry `gregorian_date` — whose
`gregorian_date` equals the new entry's, then append the new entry. -/
def dedupAppend (history : List Entry) (e : Entry) : List Entry :=
  (history.filter fun x => x.gregorian_date ≠ e.gregorian_date) ++ [e]

/-- Python `l[-n:]`: the most recent `n` entries by position. -/
def takeLast (n : Nat) (l : List Entry) : List Entry :=
  l.drop (l.length - n)

/-- Lines 1122-1127: dedup, append, then truncate to `MAX_HISTORY_MONTHS`. -/
def updateLedger (history : List Entry) (e : Entry) : List Entry :=
  takeLast MAX_HISTORY_MONTHS (dedupAppend history e)

/-- Stable insertion keeping `e` after every strictly-smaller timestamp and
before equal ones inserted earlier, so that `sortByTimestamp` agrees with
Python's stable `sorted(history, key=lambda x: x['timestamp'])`. -/
def insertByTimestamp (e : Entry) : List Entry → List Entry
  | [] => [e]
  | y :: ys =>
      if strLtB y.timestamp e.timestamp then y :: insertByTimestamp e ys
      else e :: y :: ys

/-- `sorted(self.balance_history, key=lambda x: x['timestamp'])` (line 1131):
a stable ascending sort by the timestamp string. -/
def sortByTimestamp (l : List Entry) : List Entry :=
  l.foldr insertByTimestamp []

/-- The backward walk (lines 1133-1140) over the reversed sorted ledger:
a payment marker stops the count, an above-threshold observation adds one and
continues, a below-threshold observation stops. -/
def streakAux : List Entry → Nat
  | [] => 0
  | e :: rest =>
      match e with
      | .marker _ _ => 0
      | .obs _ _ above _ _ _ _ => if above then streakAux rest + 1 else 0

/-- `consecutive_months` as computed by the replay loop, before any override. -/
def countConsecutiveMonths (l : List Entry) : Nat :=
  streakAux l.reverse

/-- The adapter (`ZakatMonitorAdapter.run_analysis`, adapter.py lines 157-162)
passes the override dict to the monitor only when `enabled` is set. -/
def adapterGate (cfg : Option YearProgressOverride) : Option YearProgressOverride :=
  match cfg with
  | some o => if o.enabled then some o else none
  | none => none

/-- Lines 1147-1155: if an override dict is present and the replayed streak is
positive, `effective = months_above_nisab + max(0, streak - 1)` replaces the
streak when strictly larger. -/
def applyOverride (ov : Option YearProgressOverride) (consecutive_months : Nat) : Nat :=
  match ov with
  | some o =>
      if 0 < consecutive_months then
        let effective := o.months_above_nisab + (consecutive_months - 1)
        if consecutive_months < effective then effective else consecutive_months
      else consecutive_months
  | none => consecutive_months

/-- `check_hijri_year_threshold` (lines 1104-1170): build the new observation,
dedup/append/evict, replay the streak, apply the override, and decide the
verdict.  Returns the verdict together with the mutated ledger
(`self.balance_history`) that `run_analysis` then persists. -/
def checkHijriYearThreshold (history : List Entry)
    (total_assets nisab_threshold : ℚ) (current_date : DateInfo)
    (bank_balance additional_assets : ℚ)
    (override : Option YearProgressOverride) (now : String) :
    AnalysisResult × List Entry :=
  let current_entry : Entry :=
    .obs total_assets nisab_threshold (decide (total_assets ≥ nisab_threshold))
      current_date.hijri_year current_date.hijri_month
      current_date.gregorian_date now
  let newHistory := updateLedger history current_entry
  let consecutive_months :=
    applyOverride override (countConsecutiveMonths (sortByTimestamp newHistory))
  let hijri_year_complete := decide (consecutive_months ≥ HIJRI_YEAR_MONTHS)
  ({ bank_balance := bank_balance
     additional_assets := additional_assets
     total_assets := total_assets
     nisab_threshold := nisab_threshold
     above_nisab := decide (total_assets ≥ nisab_threshold)
     consecutive_months_above_nisab := consecutive_months
     hijri_year_complete := hijri_year_complete
     zakat_due := hijri_year_complete
     zakat_amount := if hijri_year_complete then total_assets * ZAKAT_RATE else 0 },
   newHistory)

-- --- Date parsing: datetime.strptime(s, '%d.%m.%Y') ---

/-- Numeric value of a decimal digit character. -/
def digitVal (c : Char) : Nat := c.toNat - 48

/-- CPython `_strptime` day pattern `(3[01]|[12]\d|0[1-9]|[1-9])`: the ordered
alternatives, each returning the parsed day and the remaining input. -/
def dayAlts (cs : List Char) : List (Nat × List Char) :=
  (match cs with
    | '3' :: c :: rest =>
        if c = '0' ∨ c = '1' then [(30 + digitVal c, rest)] else []
    | _ => []) ++
  (match cs with
    | c :: d :: rest =>
        if (c = '1' ∨ c = '2') ∧ d.isDigit then
          [(digitVal c * 10 + digitVal d, rest)]
        else []
    | _ => []) ++
  (match cs with
    | '0' :: c :: rest =>
        if '1' ≤ c ∧ c ≤ '9' then [(digitVal c, rest)] else []
    | _ => []) ++
  (match cs with
    | c :: rest => if '1' ≤ c ∧ c ≤ '9' then [(digitVal c, rest)] else []
    | _ => [])

/-- CPython `_strptime` month pattern `(1[0-2]|0[1-9]|[1-9])`. -/
def monthAlts (cs : List Char) : List (Nat × List Char) :=
  (match cs with
    | '1' :: c :: rest =>
        if c = '0' ∨ c = '1' ∨ c = '2' then [(10 + digitVal c, rest)] else []
    | _ => []) ++
  (match cs with
    | '0' :: c :: rest =>
        if '1' ≤ c ∧ c ≤ '9' then [(digitVal c, rest)] else []
    | _ => []) ++
  (match cs with
    | c :: rest => if '1' ≤ c ∧ c ≤ '9' then [(digitVal c, rest)] else []
    | _ => [])

/-- CPython `_strptime` year pattern `\d\d\d\d`: exactly four digits. -/
def year4 (cs : List Char) : Option (Nat × List Char) :=
  match cs with
  | a :: b :: c :: d :: rest =>
      if a.isDigit ∧ b.isDigit ∧ c.isDigit ∧ d.isDigit then
        some (digitVal a * 1000 + digitVal b * 100 + digitVal c * 10 + digitVal d, rest)
      else none
  | _ => none

/-- Literal `.` in the pattern. -/
def expectDot (cs : List Char) : Option (List Char) :=
  match cs with
  | '.' :: rest => some rest
  | _ => none

/-- Regex match of `(day)\.(month)\.(year)` with the ordered-alternative
backtracking of the `re` engine, requiring the whole string to be consumed
(as `strptime` does). -/
def parseDMYChars (cs : List Char) : Option (Nat × Nat × Nat) :=
  (dayAlts cs).findSome? fun dm =>
    (expectDot dm.2).bind fun r2 =>
      (monthAlts r2).findSome? fun mm =>
        (expectDot mm.2).bind fun r4 =>
          (year4 r4).bind fun ym =>
            if ym.2 = [] then some (dm.1, mm.1, ym.1) else none

/-- Gregorian leap year, as `datetime` uses. -/
def isLeapYear (y : Nat) : Bool :=
  y % 4 = 0 ∧ (y % 100 ≠ 0 ∨ y % 400 = 0)

/-- Days in a Gregorian month (month is 1-12 by the regex). -/
def daysInMonth (y m : Nat) : Nat :=
  if m = 2 then (if isLeapYear y then 29 else 28)
  else if m = 4 ∨ m = 6 ∨ m = 9 ∨ m = 11 then 30
  else 31

/-- `datetime.strptime(s, '%d.%m.%Y')`: regex match, then the `datetime`
constructor's calendar validation (year ≥ MINYEAR = 1, day within the month).
Returns `(day, month, year)`, or `none` where Python raises `ValueError`. -/
def strptimeDMY (s : String) : Option (Nat × Nat × Nat) :=
  (parseDMYChars s.data).bind fun t =>
    if 1 ≤ t.2.2 ∧ t.1 ≤ daysInMonth t.2.2 t.2.1 then some t else none

/-- `ZakatMonitor._validate_date_format` (zakat_monitor.py lines 155-166):
regex `^\d{2}\.\d{2}\.\d{4}$` and then `strptime` — the strict zero-padded
check.  `record_zakat_payment` does NOT call this; it uses bare `strptime`. -/
def validate_date_format (s : String) : Bool :=
  match s.data with
  | [a, b, c, d, e, f, g, h, i, j] =>
      a.isDigit && b.isDigit && c = '.' && d.isDigit && e.isDigit && f = '.' &&
      g.isDigit && h.isDigit && i.isDigit && j.isDigit && (strptimeDMY s).isSome
  | _ => false

/-- Two-digit zero padding, as in `datetime.isoformat`. -/
def pad2 (n : Nat) : String :=
  if n < 10 then "0" ++ toString n else toString n

/-- Four-digit zero padding for the year in `datetime.isoformat`. -/
def pad4 (n : Nat) : String :=
  if n < 10 then "000" ++ toString n
  else if n < 100 then "00" ++ toString n
  else if n < 1000 then "0" ++ toString n
  else toString n

/-- `datetime(y, m, d).isoformat()` for a midnight datetime. -/
def isoOf (d m y : Nat) : String :=
  pad4 y ++ "-" ++ pad2 m ++ "-" ++ pad2 d ++ "T00:00:00"

-- --- JSON values and the history-record codec ---

/-- JSON values as Python's `json` module produces them (`int` and `float`
are distinct Python types, hence two numeric constructors). -/
inductive Json where
  | null
  | bool (b : Bool)
  | inum (i : Int)
  | num (q : ℚ)
  | str (s : String)
  | arr (xs : List Json)
  | obj (fields : List (String × Json))
  deriving Repr

/-- The dict serialized for a history record: observation dicts are built in
`check_hijri_year_threshold` (lines 1108-1116), payment-marker dicts in
`record_zakat_payment` (lines 386-390). -/
def entryToJson : Entry → Json
  | .obs b n a hy hm d ts =>
      .obj [("balance", .num b), ("nisab_threshold", .num n),
            ("above_nisab", .bool a),
            ("hijri_year", match hy with | some i => .inum i | none => .null),
            ("hijri_month", match hm with | some i => .inum i | none => .null),
            ("gregorian_date", .str d), ("timestamp", .str ts)]
  | .marker ts d =>
      .obj [("type", .str "zakat_paid"), ("timestamp", .str ts),
            ("gregorian_date", .str d)]

/-- Field access on a JSON object. -/
def getField (fields : List (String × Json)) (k : String) : Option Json :=
  fields.lookup k

/-- Read a history record back from its JSON dict (the inverse direction of
the embedding; Python keeps the dicts as-is, so this decoder expresses when
two stored dicts denote the same record). -/
def entryOfJson (j : Json) : Option Entry :=
  match j with
  | .obj fs =>
      match getField fs "type" with
      | some (.str "zakat_paid") =>
          match getField fs "timestamp", getField fs "gregorian_date" with
          | some (.str ts), some (.str d) => some (.marker ts d)
          | _, _ => none
      | some _ => none
      | none =>
          match getField fs "balance", getField fs "nisab_threshold",
                getField fs "above_nisab", getField fs "hijri_year",
                getField fs "hijri_month", getField fs "gregorian_date",
                getField fs "timestamp" with
          | some (.num b), some (.num n), some (.bool a), some hy, some hm,
            some (.str d), some (.str ts) =>
              match hy, hm with
              | .inum y, .inum m => some (.obs b n a (some y) (some m) d ts)
              | .inum y, .null => some (.obs b n a (some y) none d ts)
              | .null, .inum m => some (.obs b n a none (some m) d ts)
              | .null, .null => some (.obs b n a none none d ts)
              | _, _ => none
          | _, _, _, _, _, _, _ => none
  | _ => none

/-- Decode a stored JSON array elementwise. -/
def entriesOfJson : List Json → Option (List Entry)
  | [] => some []
  | j :: js =>
      match entryOfJson j, entriesOfJson js with
      | some e, some es => some (e :: es)
      | _, _ => none

-- --- Encrypted ledger store ---

/-- Decrypted plaintext of a history store: either a JSON array (the only
shape this program ever writes), some other valid JSON value, or bytes that
are not valid JSON. -/
inductive Plain where
  | jsonArr (records : List Json)
  | jsonOther
  | notJson
  deriving Repr

/-- A Fernet token: authenticated symmetric encryption, modelled symbolically
by remembering the key that produced the ciphertext. -/
structure Ciphertext where
  key : Nat
  plain : Plain
  deriving Repr

/-- `Fernet(key).decrypt(token)`: succeeds exactly under the producing key;
a wrong key or any tampering raises `InvalidToken`, modelled as `none`. -/
def fernetDecrypt (key : Nat) (c : Ciphertext) : Option Plain :=
  if c.key = key then some c.plain else none

/-- The distinguishable failures of `HistoryStorage.load_history`
(history.py lines 107-110 and 102-103): wrong key / tampering, invalid JSON,
and decrypted JSON that is not a list. -/
inductive LoadError where
  | decryption
  | corruptJson
  | notAList
  deriving Repr, DecidableEq

/-- `HistoryStorage.save_history` (history.py lines 45-75): serialize the
list, encrypt with the store's key, overwrite the file. -/
def save_history (key : Nat) (records : List Json) : Ciphertext :=
  ⟨key, .jsonArr records⟩

/-- `HistoryStorage.load_history` (history.py lines 77-110): empty list when
the file does not exist; `ValueError` (here `LoadError`) when decryption
fails, when the plaintext is not valid JSON, or when it is not a list. -/
def load_history (key : Nat) (file : Option Ciphertext) : Except LoadError (List Json) :=
  match file with
  | none => .ok []
  | some c =>
      match fernetDecrypt key c with
      | none => .error .decryption
      | some .notJson => .error .corruptJson
      | some .jsonOther => .error .notAList
      | some (.jsonArr records) => .ok records

/-- `ZakatMonitor._load_balance_history` (zakat_monitor.py lines 286-305):
returns the decrypted records, but catches every failure — including
`InvalidToken` from a wrong key — logs a warning and returns the empty
history.  (A decrypted non-list JSON value would be returned as-is by the
Python code; no file written by this program ever has that shape, and it is
modelled as the empty fallback here.) -/
def load_balance_history (cipher_suite : Option Nat) (file : Option Ciphertext) :
    List Json :=
  match cipher_suite, file with
  | some key, some c =>
      match fernetDecrypt key c with
      | some (.jsonArr records) => records
      | _ => []
  | _, _ => []

/-- `ZakatMonitor.record_zakat_payment` (zakat_monitor.py lines 361-399):
parse the optional payment date with `strptime('%d.%m.%Y')`; on `ValueError`
log an error message and return — no exception escapes, nothing is written.
Otherwise build the `zakat_paid` marker, reload the ledger fresh, append, and
save.  Returns the resulting file state and whether a marker was recorded. -/
def record_zakat_payment (key : Nat) (file : Option Ciphertext)
    (payment_date : Option String) (nowDate nowTs : String) :
    Option Ciphertext × Bool :=
  match payment_date with
  | some d =>
      match strptimeDMY d with
      | none => (file, false)
      | some (dd, mm, yy) =>
          let entry := entryToJson (.marker (isoOf dd mm yy) d)
          let history := load_balance_history (some key) file
          (some (save_history key (history ++ [entry])), true)
  | none =>
      let entry := entryToJson (.marker nowTs nowDate)
      let history := load_balance_history (some key) file
      (some (save_history key (history ++ [entry])), true)

-- --- Normalizer period-end selection ---

/-- The per-source latest-period update (`process_multi_account_statements`,
zakat_monitor.py lines 900-917): compare by parsed calendar date; if either
date fails to parse, fall back to Python string comparison. -/
def updateLatestPeriod (latest : Option String) (current : String) : Option String :=
  match latest with
  | none => some current
  | some l =>
      match strptimeDMY current, strptimeDMY l with
      | some c, some p =>
          if p.2.2 * 10000 + p.2.1 * 100 + p.1 < c.2.2 * 10000 + c.2.1 * 100 + c.1
          then some current else some l
      | _, _ => if strLtB l current then some current else some l

/-- A single source's `period_end`: the fold of `updateLatestPeriod` over the
contributing readings' `period_end` values, defaulting to today's date string
(`latest_period or datetime.now().strftime(...)`, line 939). -/
def periodEndOfSource (periods : List String) (nowStr : String) : String :=
  (periods.foldl updateLatestPeriod none).getD nowStr

/-- One step of Python `max` on strings: replace the running maximum only
when the next item is strictly greater, keeping the earlier item on ties. -/
def pyMax (a b : String) : String := if strLtB a b then b else a

/-- The cross-source `period_end` (`_process_all_sources`, lines 996-1000 and
1006): Python `max(...)` over the per-source period strings — plain
lexicographic string comparison, keeping the earlier element on ties — with
today's date as default, and `or now` for an empty result. -/
def allSourcesPeriodEnd (sourcePeriods : List String) (nowStr : String) : String :=
  let m :=
    match sourcePeriods with
    | [] => nowStr
    | x :: xs => xs.foldl pyMax x
  if m = "" then nowStr else m

/-- Modelled from the spec: one comparison step keeping the later reading by
calendar date (and keeping the incumbent when the challenger cannot be
compared). -/
def specLatestStep (acc : Option String) (cur : String) : Option String :=
  match acc with
  | none => some cur
  | some l =>
      match strptimeDMY cur, strptimeDMY l with
      | some c, some p =>
          if p.2.2 * 10000 + p.2.1 * 100 + p.1 < c.2.2 * 10000 + c.2.1 * 100 + c.1
          then some cur else some l
      | _, _ => some l

/-- Modelled from the spec: “`observation_date` is the latest
`statement_period_end_date` across all contributing readings … take the
maximum by calendar-date comparison, not string comparison.”  The latest
reading by calendar date, keeping the earlier on ties. -/
def specCalendarLatest (periods : List String) : Option String :=
  periods.foldl specLatestStep none

-- --- Spec-side characterization of the streak and concrete scenarios ---

/-- Modelled from the spec: the last `k` entries of the ledger are all
above-threshold observations. -/
def isTrueSuffix (l : List Entry) (k : Nat) : Bool :=
  (l.drop (l.length - k)).all Entry.counted

/-- Modelled from the spec: the length of the longest suffix of the ledger
consisting only of observations with `above_nisab` true — the walk backward
stops at (and excludes) the first payment marker or below-threshold
observation. -/
def longestAboveSuffix (l : List Entry) : Nat :=
  Nat.findGreatest (fun k => isTrueSuffix l k = true) l.length

/-- An above-threshold observation for the concrete scenarios. -/
def mkAbove (d ts : String) : Entry :=
  .obs 20000 16000 true (some 1446) (some 1) d ts

/-- Twelve above-threshold months, a payment marker, one further
above-threshold month; the current observation is the second entry after the
marker. -/
def markerScenarioHistory : List Entry :=
  [mkAbove "01" "01", mkAbove "02" "02", mkAbove "03" "03", mkAbove "04" "04",
   mkAbove "05" "05", mkAbove "06" "06", mkAbove "07" "07", mkAbove "08" "08",
   mkAbove "09" "09", mkAbove "10" "10", mkAbove "11" "11", mkAbove "12" "12",
   .marker "13" "13m", mkAbove "14" "14"]

/-- The `i`-th observation of the eviction scenario, with a fresh date. -/
def obsAt (i : Nat) : Entry :=
  .obs 20000 16000 true none none (toString i) (toString i)

-- --- Helper lemmas ---

lemma streakAux_eq_length_takeWhile (l : List Entry) :
    streakAux l = (l.takeWhile Entry.counted).length := by
  induction l with
  | nil => rfl
  | cons e rest ih =>
    cases e with
    | marker ts d => simp [streakAux, List.takeWhile_cons, Entry.counted]
    | obs b n a hy hm d ts =>
      cases a with
      | true => simp [streakAux, List.takeWhile_cons, Entry.counted, ih]
      | false => simp [streakAux, List.takeWhile_cons, Entry.counted]

lemma all_take_length_takeWhile (p : Entry → Bool) (l : List Entry) :
    (l.take (l.takeWhile p).length).all p = true := by
  induction l with
  | nil => simp
  | cons a as ih =>
    by_cases h : p a = true
    · simp [List.takeWhile_cons, h, ih]
    · simp [List.takeWhile_cons, h]

lemma le_length_takeWhile_of_all_take (p : Entry → Bool) :
    ∀ (l : List Entry) (k : Nat), (l.take k).all p = true →
      k ≤ l.length → k ≤ (l.takeWhile p).length := by
  intro l
  induction l with
  | nil => intro k _ hk; simpa using hk
  | cons a as ih =>
    intro k hall hk
    cases k with
    | zero => exact Nat.zero_le _
    | succ k =>
      simp only [List.take_succ_cons, List.all_cons, Bool.and_eq_true] at hall
      simp [List.takeWhile_cons, hall.1]
      exact ih k hall.2 (by simpa using hk)

lemma length_takeWhile_le_self (p : Entry → Bool) (l : List Entry) :
    (l.takeWhile p).length ≤ l.length := by
  induction l with
  | nil => simp
  | cons a as ih =>
    by_cases h : p a = true
    · simp [List.takeWhile_cons, h]; omega
    · simp [List.takeWhile_cons, h]

lemma drop_sub_all_eq (p : Entry → Bool) (l : List Entry) (k : Nat) :
    (l.drop (l.length - k)).all p = (l.reverse.take k).all p := by
  have h : (l.reverse.take k).reverse = l.drop (l.length - k) := by
    have := List.reverse_take (n := k) (l := l.reverse)
    simpa using this
  rw [← h, List.all_reverse]

lemma countConsecutiveMonths_eq_longest (l : List Entry) :
    countConsecutiveMonths l = longestAboveSuffix l := by
  unfold countConsecutiveMonths longestAboveSuffix
  rw [streakAux_eq_length_takeWhile]
  symm
  rw [Nat.findGreatest_eq_iff]
  refine ⟨?_, ?_, ?_⟩
  · calc (l.reverse.takeWhile Entry.counted).length
        ≤ l.reverse.length := length_takeWhile_le_self _ _
      _ = l.length := by simp
  · intro _
    show isTrueSuffix l _ = true
    unfold isTrueSuffix
    rw [drop_sub_all_eq]
    exact all_take_length_takeWhile _ _
  · intro n hmn hnl hP
    unfold isTrueSuffix at hP
    rw [drop_sub_all_eq] at hP
    have : n ≤ (l.reverse.takeWhile Entry.counted).length :=
      le_length_takeWhile_of_all_take _ l.reverse n hP (by simpa using hnl)
    omega

lemma streakAux_le_length (l : List Entry) : streakAux l ≤ l.length := by
  induction l with
  | nil => simp [streakAux]
  | cons e rest ih =>
    cases e with
    | marker ts d => simp [streakAux]
    | obs b n a hy hm d ts =>
      cases a with
      | true => simp [streakAux]; omega
      | false => simp [streakAux]

lemma countConsecutiveMonths_le_length (l : List Entry) :
    countConsecutiveMonths l ≤ l.length := by
  unfold countConsecutiveMonths
  calc streakAux l.reverse ≤ l.reverse.length := streakAux_le_length _
    _ = l.length := by simp

lemma length_insertByTimestamp (e : Entry) (l : List Entry) :
    (insertByTimestamp e l).length = l.length + 1 := by
  induction l with
  | nil => rfl
  | cons y ys ih =>
    by_cases h : strLtB y.timestamp e.timestamp = true
    · simp [insertByTimestamp, h, ih]
    · simp [insertByTimestamp, h]

lemma length_sortByTimestamp (l : List Entry) :
    (sortByTimestamp l).length = l.length := by
  induction l with
  | nil => rfl
  | cons a as ih =>
    show (insertByTimestamp a (sortByTimestamp as)).length = as.length + 1
    rw [length_insertByTimestamp, ih]

lemma length_updateLedger_le (h : List Entry) (e : Entry) :
    (updateLedger h e).length ≤ MAX_HISTORY_MONTHS := by
  simp [updateLedger, takeLast]
  omega

lemma filter_idem (p : Entry → Bool) (h : List Entry) :
    (h.filter p).filter p = h.filter p := by
  induction h with
  | nil => rfl
  | cons a t ih =>
    by_cases hp : p a = true <;> simp [List.filter_cons, hp, ih]

lemma entryOfJson_entryToJson (e : Entry) : entryOfJson (entryToJson e) = some e := by
  cases e with
  | obs b n a hy hm d ts => cases hy <;> cases hm <;> rfl
  | marker ts d => rfl

lemma entriesOfJson_map (es : List Entry) :
    entriesOfJson (es.map entryToJson) = some es := by
  induction es with
  | nil => rfl
  | cons e t ih => simp [entriesOfJson, entryOfJson_entryToJson, ih]

lemma charToNat_inj {a b : Char} (h : a.toNat = b.toNat) : a = b := by
  have hv : a.val = b.val := by
    apply UInt32.eq_of_val_eq
    apply Fin.eq_of_val_eq
    simpa [Char.toNat, UInt32.toNat] using h
  exact Char.ext hv

lemma charListLt_irrefl (cs : List Char) : charListLt cs cs = false := by
  induction cs with
  | nil => rfl
  | cons a as ih => simp [charListLt, ih]

lemma charListLt_trans :
    ∀ {as bs cs : List Char}, charListLt as bs = true → charListLt bs cs = true →
      charListLt as cs = true := by
  intro as
  induction as with
  | nil =>
    intro bs cs hab hbc
    match bs, cs with
    | [], _ => simp [charListLt] at hab
    | _ :: _, [] => simp [charListLt] at hbc
    | _ :: _, _ :: _ => simp [charListLt]
  | cons a as ih =>
    intro bs cs hab hbc
    match bs, cs with
    | [], _ => simp [charListLt] at hab
    | _ :: _, [] => simp [charListLt] at hbc
    | b :: bs', c :: cs' =>
      simp only [charListLt] at hab hbc ⊢
      by_cases h1 : a.toNat < b.toNat
      · by_cases h3 : b.toNat < c.toNat
        · simp [show a.toNat < c.toNat by omega]
        · by_cases h4 : c.toNat < b.toNat
          · simp [h3, h4] at hbc
          · simp [show a.toNat < c.toNat by omega]
      · by_cases h2 : b.toNat < a.toNat
        · simp [h1, h2] at hab
        · simp [h1, h2] at hab
          by_cases h3 : b.toNat < c.toNat
          · simp [show a.toNat < c.toNat by omega]
          · by_cases h4 : c.toNat < b.toNat
            · simp [h3, h4] at hbc
            · simp [h3, h4] at hbc
              simp [show ¬ a.toNat < c.toNat by omega,
                show ¬ c.toNat < a.toNat by omega]
              exact ih hab hbc

lemma charListLt_connex :
    ∀ {as bs : List Char}, charListLt as bs = false →
      charListLt bs as = true ∨ as = bs := by
  intro as
  induction as with
  | nil =>
    intro bs h
    match bs with
    | [] => right; rfl
    | _ :: _ => simp [charListLt] at h
  | cons a as ih =>
    intro bs h
    match bs with
    | [] => left; rfl
    | b :: bs' =>
      simp only [charListLt] at h ⊢
      by_cases h1 : a.toNat < b.toNat
      · simp [h1] at h
      · by_cases h2 : b.toNat < a.toNat
        · left; simp [h2]
        · simp [h1, h2] at h
          rcases ih h with htail | heq
          · left; simp [h1, h2, htail]
          · right
            rw [heq, charToNat_inj (by omega : a.toNat = b.toNat)]

lemma strLtB_irrefl (s : String) : strLtB s s = false := charListLt_irrefl _

lemma strLtB_trans {a b c : String} (h1 : strLtB a b = true) (h2 : strLtB b c = true) :
    strLtB a c = true := charListLt_trans h1 h2

lemma strLtB_connex {a b : String} (h : strLtB a b = false) :
    strLtB b a = true ∨ a = b := by
  rcases charListLt_connex h with h' | h'
  · left; exact h'
  · right
    cases a with | mk da =>
    cases b with | mk db =>
    have : da = db := h'
    rw [this]

lemma foldl_pyMax_mem : ∀ (xs : List String) (x : String),
    xs.foldl pyMax x = x ∨ xs.foldl pyMax x ∈ xs := by
  intro xs
  induction xs with
  | nil => intro x; left; rfl
  | cons b bs ih =>
    intro x
    rw [List.foldl_cons]
    rcases ih (pyMax x b) with h | h
    · rw [h]
      unfold pyMax
      by_cases hb : strLtB x b = true
      · right; simp [hb]
      · left; simp [hb]
    · right; exact List.mem_cons_of_mem _ h

lemma foldl_pyMax_not_lt : ∀ (xs : List String) (x : String),
    strLtB (xs.foldl pyMax x) x = false
    ∧ ∀ p ∈ xs, strLtB (xs.foldl pyMax x) p = false := by
  intro xs
  induction xs with
  | nil => intro x; exact ⟨strLtB_irrefl x, by simp⟩
  | cons b bs ih =>
    intro x
    rw [List.foldl_cons]
    obtain ⟨h1, h2⟩ := ih (pyMax x b)
    by_cases hxb : strLtB x b = true
    · have hacc : pyMax x b = b := by simp [pyMax, hxb]
      rw [hacc] at h1 h2 ⊢
      refine ⟨?_, ?_⟩
      · by_contra hfx
        rw [Bool.not_eq_false] at hfx
        have : strLtB (bs.foldl pyMax b) b = true := strLtB_trans hfx hxb
        simp [h1] at this
      · intro p hp
        rcases List.mem_cons.mp hp with rfl | hp'
        · exact h1
        · exact h2 p hp'
    · have hacc : pyMax x b = x := by simp [pyMax, hxb]
      rw [hacc] at h1 h2 ⊢
      have hxb' : strLtB x b = false := by simpa using hxb
      refine ⟨h1, ?_⟩
      intro p hp
      rcases List.mem_cons.mp hp with rfl | hp'
      · rcases strLtB_connex hxb' with hbx | hEq
        · by_contra hfb
          rw [Bool.not_eq_false] at hfb
          have : strLtB (bs.foldl pyMax x) x = true := strLtB_trans hfb hbx
          simp [h1] at this
        · rw [← hEq]; exact h1
      · exact h2 p hp'

lemma updateLatestPeriod_eq_spec_of_parse (acc : Option String) (q : String)
    (hq : (strptimeDMY q).isSome)
    (hacc : ∀ a, acc = some a → (strptimeDMY a).isSome) :
    updateLatestPeriod acc q = specLatestStep acc q := by
  cases acc with
  | none => rfl
  | some l =>
    rcases Option.isSome_iff_exists.mp hq with ⟨c, hc⟩
    rcases Option.isSome_iff_exists.mp (hacc l rfl) with ⟨p, hp⟩
    simp only [updateLatestPeriod, specLatestStep]
    rw [hc, hp]

lemma specLatestStep_parses (acc : Option String) (q : String)
    (hq : (strptimeDMY q).isSome)
    (hacc : ∀ a, acc = some a → (strptimeDMY a).isSome) :
    ∀ a, specLatestStep acc q = some a → (strptimeDMY a).isSome := by
  intro a ha
  cases acc with
  | none =>
    have : a = q := by simpa [specLatestStep] using ha.symm
    rw [this]; exact hq
  | some l =>
    have hl : (strptimeDMY l).isSome := hacc l rfl
    rcases Option.isSome_iff_exists.mp hq with ⟨c, hc⟩
    rcases Option.isSome_iff_exists.mp hl with ⟨p, hp⟩
    simp only [specLatestStep, hc, hp] at ha
    by_cases hcmp : p.2.2 * 10000 + p.2.1 * 100 + p.1 < c.2.2 * 10000 + c.2.1 * 100 + c.1
    · rw [if_pos hcmp] at ha
      have : a = q := by simpa using ha.symm
      rw [this]; exact hq
    · rw [if_neg hcmp] at ha
      have : a = l := by simpa using ha.symm
      rw [this]; exact hl

lemma foldl_updateLatestPeriod_eq_spec :
    ∀ (ps : List String) (acc : Option String),
      (∀ p ∈ ps, (strptimeDMY p).isSome) →
      (∀ a, acc = some a → (strptimeDMY a).isSome) →
      ps.foldl updateLatestPeriod acc = ps.foldl specLatestStep acc := by
  intro ps
  induction ps with
  | nil => intro acc _ _; rfl
  | cons q qs ih =>
    intro acc hall hacc
    have hq := hall q (List.mem_cons_self q qs)
    rw [List.foldl_cons, List.foldl_cons,
      updateLatestPeriod_eq_spec_of_parse acc q hq hacc]
    exact ih (specLatestStep acc q)
      (fun p hp => hall p (List.mem_cons_of_mem _ hp))
      (specLatestStep_parses acc q hq hacc)

-- --- Claim theorems ---

/-- C1: after sorting the ledger by timestamp ascending, the replayed
`consecutive_months_above_nisab` (before any override) equals the length of
the longest suffix of the sorted ledger consisting only of above-threshold
observations, bounded by the first payment marker or below-threshold
observation walking backward; in particular 12 above-threshold entries, a
marker, then 2 above-threshold entries give streak 2. -/
theorem consecutive_months_is_longest_true_suffix :
    (∀ history : List Entry,
        countConsecutiveMonths (sortByTimestamp history)
          = longestAboveSuffix (sortByTimestamp history))
    ∧ (checkHijriYearThreshold markerScenarioHistory 20000 16000
        ⟨some 1446, some 1, "15"⟩ 20000 0 none
        "15").1.consecutive_months_above_nisab = 2 :=
  ⟨fun _ => countConsecutiveMonths_eq_longest _, by decide⟩

/-- C2 counterexample: a payment marker whose `gregorian_date` matches the new
observation's date IS removed by the dedup step — the resulting ledger holds
only the new observation, contrary to the claim that markers are never
removed. -/
theorem dedup_removes_matching_marker_cex :
    (checkHijriYearThreshold [Entry.marker "01" "15.01.2025"] 20000 16000
        ⟨some 1446, some 7, "15.01.2025"⟩ 20000 0 none "02").2
      = [Entry.obs 20000 16000 true (some 1446) (some 7) "15.01.2025" "02"] := by
  decide

/-- C2 amended: the dedup step removes exactly the entries — observations and
payment markers alike — whose `gregorian_date` equals the new observation's
date, then appends the new observation; hence exactly one entry with that
date remains, and re-observing the same date is last-write-wins regardless of
submission order. -/
theorem dedup_removes_every_matching_entry (h : List Entry) (e₁ e₂ : Entry) :
    (∀ x : Entry, x ∈ dedupAppend h e₁ ↔
        (x ∈ h ∧ x.gregorian_date ≠ e₁.gregorian_date) ∨ x = e₁)
    ∧ (e₁.gregorian_date = e₂.gregorian_date →
        dedupAppend (dedupAppend h e₁) e₂ = dedupAppend h e₂)
    ∧ (dedupAppend h e₁).countP
        (fun x => decide (x.gregorian_date = e₁.gregorian_date)) = 1 := by
  refine ⟨?_, ?_, ?_⟩
  · intro x
    simp [dedupAppend, List.mem_filter, List.mem_append]
  · intro hd
    unfold dedupAppend
    rw [← hd, List.filter_append, filter_idem]
    simp
  · rw [dedupAppend, List.countP_append]
    have h0 : (h.filter fun x => x.gregorian_date ≠ e₁.gregorian_date).countP
        (fun x => decide (x.gregorian_date = e₁.gregorian_date)) = 0 := by
      rw [List.countP_eq_zero]
      intro a ha
      have := (List.mem_filter.mp ha).2
      simp at this ⊢
      exact this
    rw [h0]
    simp

/-- C2 witness: re-observing an already-present date replaces the earlier
observation, and exactly one entry with that date remains. -/
theorem dedup_last_write_wins_witness :
    dedupAppend (dedupAppend [Entry.marker "t0" "01.01.2025"]
        (Entry.obs 100 50 true none none "02.01.2025" "t1"))
        (Entry.obs 200 50 true none none "02.01.2025" "t2")
      = dedupAppend [Entry.marker "t0" "01.01.2025"]
          (Entry.obs 200 50 true none none "02.01.2025" "t2")
    ∧ (dedupAppend [Entry.marker "t0" "01.01.2025"]
        (Entry.obs 100 50 true none none "02.01.2025" "t1")).countP
        (fun x => decide (x.gregorian_date
          = (Entry.obs 100 50 true none none "02.01.2025" "t1").gregorian_date)) = 1 :=
  ⟨(dedup_removes_every_matching_entry [Entry.marker "t0" "01.01.2025"]
      (Entry.obs 100 50 true none none "02.01.2025" "t1")
      (Entry.obs 200 50 true none none "02.01.2025" "t2")).2.1 rfl,
   (dedup_removes_every_matching_entry [Entry.marker "t0" "01.01.2025"]
      (Entry.obs 100 50 true none none "02.01.2025" "t1")
      (Entry.obs 200 50 true none none "02.01.2025" "t2")).2.2⟩

/-- C3: when enabled and the replayed streak is positive, the override lifts
the streak to `months_above_nisab + max(0, streak - 1)` exactly when that
exceeds the replayed value (i.e. the result is the max of the two); a zero
streak is never boosted — the reported count stays 0. -/
theorem override_boosts_only_nonzero_streak (cfg : YearProgressOverride) (streak : Nat) :
    (cfg.enabled = true → 0 < streak →
      applyOverride (adapterGate (some cfg)) streak
        = max streak (cfg.months_above_nisab + (streak - 1)))
    ∧ (∀ ov : Option YearProgressOverride, applyOverride ov 0 = 0) := by
  constructor
  · intro hen hpos
    simp only [adapterGate, hen, if_pos, applyOverride, hpos, if_true]
    split <;> omega
  · intro ov
    cases ov <;> simp [applyOverride]

/-- C3 witness: an 8-month override on a replayed streak of 3 yields
8 + (3 - 1) = 10, and the same override leaves a zero streak at 0. -/
theorem override_boost_witness :
    applyOverride (adapterGate (some ⟨true, 8⟩)) 3 = 10
    ∧ applyOverride (adapterGate (some ⟨true, 8⟩)) 0 = 0 :=
  ⟨((override_boosts_only_nonzero_streak ⟨true, 8⟩ 3).1 rfl (by decide)).trans (by decide),
   (override_boosts_only_nonzero_streak ⟨true, 8⟩ 3).2 _⟩

/-- C4: the verdict satisfies `above_nisab ↔ total ≥ nisab` (equality counts
as above), `hijri_year_complete ↔ streak ≥ 12`, `zakat_due =
hijri_year_complete`, and `zakat_amount = total * 0.025` exactly when the
year is complete (0 otherwise). -/
theorem verdict_decision_rules (history : List Entry) (total_assets nisab_threshold : ℚ)
    (current_date : DateInfo) (bank_balance additional_assets : ℚ)
    (override : Option YearProgressOverride) (now : String) :
    ((checkHijriYearThreshold history total_assets nisab_threshold current_date
        bank_balance additional_assets override now).1.above_nisab = true
      ↔ total_assets ≥ nisab_threshold)
    ∧ ((checkHijriYearThreshold history total_assets nisab_threshold current_date
        bank_balance additional_assets override now).1.hijri_year_complete = true
      ↔ (checkHijriYearThreshold history total_assets nisab_threshold current_date
        bank_balance additional_assets override now).1.consecutive_months_above_nisab
          ≥ HIJRI_YEAR_MONTHS)
    ∧ (checkHijriYearThreshold history total_assets nisab_threshold current_date
        bank_balance additional_assets override now).1.zakat_due
      = (checkHijriYearThreshold history total_assets nisab_threshold current_date
        bank_balance additional_assets override now).1.hijri_year_complete
    ∧ (checkHijriYearThreshold history total_assets nisab_threshold current_date
        bank_balance additional_assets override now).1.zakat_amount
      = (if (checkHijriYearThreshold history total_assets nisab_threshold current_date
          bank_balance additional_assets override now).1.hijri_year_complete = true
         then total_assets * ZAKAT_RATE else 0) := by
  refine ⟨?_, ?_, rfl, rfl⟩
  · simp [checkHijriYearThreshold]
  · simp [checkHijriYearThreshold]

/-- C4 witness: a concrete run with assets 20000 against nisab 16000 reports
`above_nisab`. -/
theorem verdict_decision_witness :
    (checkHijriYearThreshold [] 20000 16000 ⟨none, none, "01.01.2025"⟩ 20000 0 none
        "t").1.above_nisab = true ↔ (20000 : ℚ) ≥ 16000 :=
  (verdict_decision_rules [] 20000 16000 ⟨none, none, "01.01.2025"⟩ 20000 0 none "t").1

set_option maxRecDepth 100000 in
/-- C5: after append-then-evict the ledger holds at most 24 entries —
exactly the most recent ones by position (the deduped-appended list is the
dropped prefix followed by the kept ledger); appending 30 fresh observations
leaves exactly the most recent 24. -/
theorem ledger_capped_at_24 (h : List Entry) (e : Entry) :
    (updateLedger h e).length ≤ MAX_HISTORY_MONTHS
    ∧ dedupAppend h e
        = (dedupAppend h e).take ((dedupAppend h e).length - MAX_HISTORY_MONTHS)
            ++ updateLedger h e
    ∧ (List.range 30).foldl (fun acc i => updateLedger acc (obsAt i)) []
        = ((List.range 30).drop 6).map obsAt :=
  ⟨length_updateLedger_le h e, (List.take_append_drop _ _).symm, by decide⟩

/-- C6 counterexample: on a store written under key 1 and read under key 2,
the app storage layer fails with the decryption error, but the monitor's own
loader — the one the eligibility engine uses — silently returns the empty
history instead of failing. -/
theorem wrong_key_monitor_fallback_cex :
    load_history 2 (some (save_history 1 [entryToJson (Entry.marker "t" "01.01.2025")]))
      = .error .decryption
    ∧ load_balance_history (some 2)
        (some (save_history 1 [entryToJson (Entry.marker "t" "01.01.2025")])) = []
    ∧ load_history 2 none = .ok ([] : List Json) :=
  ⟨rfl, rfl, rfl⟩

/-- C6 amended: `HistoryStorage.load_history` distinguishes a missing file
(empty history) from an undecryptable store (distinct `decryption` error) and
never falls back to empty; `ZakatMonitor._load_balance_history`, however,
swallows the decryption failure and returns the empty history. -/
theorem load_history_error_discipline (key : Nat) (c : Ciphertext) :
    (key ≠ c.key →
      load_history key (some c) = .error .decryption
      ∧ load_balance_history (some key) (some c) = [])
    ∧ load_history key none = .ok []
    ∧ load_balance_history (some key) none = [] := by
  refine ⟨?_, rfl, rfl⟩
  intro hk
  have hd : fernetDecrypt key c = none := by
    have : ¬ c.key = key := fun h => hk h.symm
    simp [fernetDecrypt, this]
  exact ⟨by simp [load_history, hd], by simp [load_balance_history, hd]⟩

/-- C6 witness: key 2 against a store produced under key 1. -/
theorem load_history_error_witness :
    load_history 2 (some ⟨1, .jsonArr []⟩) = .error .decryption
    ∧ load_balance_history (some 2) (some ⟨1, .jsonArr []⟩) = [] :=
  (load_history_error_discipline 2 ⟨1, .jsonArr []⟩).1 (by decide)

/-- C7: saving any record sequence and loading it back yields an equal
sequence (for any JSON record list, including the empty one and mixed
observation/marker sequences, whose dict encodings decode back to the same
records); saving is deterministic here, so a repeated save loads back
equally. -/
theorem history_store_roundtrip (key : Nat) (records : List Json) (es : List Entry) :
    load_history key (some (save_history key records)) = .ok records
    ∧ entriesOfJson (es.map entryToJson) = some es :=
  ⟨by simp [load_history, save_history, fernetDecrypt], entriesOfJson_map es⟩

/-- C8 counterexample: two sources, one reading each, period ends
`30.01.2024` and `01.02.2024`.  Each source's own period end uses calendar
comparison, but the cross-source merge takes the lexicographic string
maximum, yielding `30.01.2024` even though the latest calendar date among
the contributing readings is `01.02.2024`. -/
theorem cross_source_period_lexicographic_cex :
    periodEndOfSource ["30.01.2024"] "x" = "30.01.2024"
    ∧ periodEndOfSource ["01.02.2024"] "x" = "01.02.2024"
    ∧ allSourcesPeriodEnd ["30.01.2024", "01.02.2024"] "x" = "30.01.2024"
    ∧ specCalendarLatest ["30.01.2024", "01.02.2024"] = some "01.02.2024"
    ∧ ("30.01.2024" : String) ≠ "01.02.2024" :=
  ⟨rfl, rfl, by decide, by decide, by decide⟩

/-- C8 amended: within a single source the latest period end is chosen by
calendar-date comparison (whenever all contributing dates parse, the
implementation fold equals the spec's calendar-latest), but across sources
the merge is a plain lexicographic string maximum: the result is one of the
per-source strings and no per-source string is lexicographically greater. -/
theorem period_end_selection
    (ps : List String) (x : String) (xs : List String) (nowStr : String) :
    ((∀ p ∈ ps, (strptimeDMY p).isSome) →
      ps.foldl updateLatestPeriod none = specCalendarLatest ps)
    ∧ ("" ∉ x :: xs →
        allSourcesPeriodEnd (x :: xs) nowStr ∈ x :: xs
        ∧ ∀ p ∈ x :: xs, strLtB (allSourcesPeriodEnd (x :: xs) nowStr) p = false) := by
  constructor
  · intro hall
    unfold specCalendarLatest
    exact foldl_updateLatestPeriod_eq_spec ps none hall (by simp)
  · intro hne
    have hmem : xs.foldl pyMax x ∈ x :: xs := by
      rcases foldl_pyMax_mem xs x with h | h
      · rw [h]; exact List.mem_cons_self _ _
      · exact List.mem_cons_of_mem _ h
    have hnotempty : xs.foldl pyMax x ≠ "" := fun h => hne (h ▸ hmem)
    have hres : allSourcesPeriodEnd (x :: xs) nowStr = xs.foldl pyMax x := by
      simp [allSourcesPeriodEnd, hnotempty]
    obtain ⟨h1, h2⟩ := foldl_pyMax_not_lt xs x
    rw [hres]
    refine ⟨hmem, ?_⟩
    intro p hp
    rcases List.mem_cons.mp hp with rfl | hp'
    · exact h1
    · exact h2 p hp'

/-- C8 witness: the single-source calendar fold and the cross-source string
maximum at concrete inputs. -/
theorem period_end_selection_witness :
    ["30.01.2024", "01.02.2024"].foldl updateLatestPeriod none
        = specCalendarLatest ["30.01.2024", "01.02.2024"]
    ∧ allSourcesPeriodEnd ["30.01.2024", "01.02.2024"] "x"
        ∈ ["30.01.2024", "01.02.2024"] :=
  ⟨(period_end_selection ["30.01.2024", "01.02.2024"] "a" [] "n").1 (by decide),
   ((period_end_selection [] "30.01.2024" ["01.02.2024"] "x").2 (by decide)).1⟩

/-- C9 counterexample: `"1.1.2025"` fails the strict zero-padded format check
(the code's own `_validate_date_format`) yet `record_zakat_payment` accepts
it — a marker is appended and saved (the persisted ledger grows from 0 to 1
entries) and no error of any kind is raised, contrary to the claim that every
non-zero-padded input fails before any mutation. -/
theorem nonpadded_date_recorded_cex :
    validate_date_format "1.1.2025" = false
    ∧ (record_zakat_payment 5 (some (save_history 5 [])) (some "1.1.2025") "x" "y").2 = true
    ∧ (load_balance_history (some 5)
        (record_zakat_payment 5 (some (save_history 5 [])) (some "1.1.2025") "x" "y").1).length = 1
    ∧ (load_balance_history (some 5) (some (save_history 5 []))).length = 0 :=
  ⟨by decide, by decide, rfl, rfl⟩

/-- C9 amended: on any payment date that `strptime('%d.%m.%Y')` rejects
(which accepts non-zero-padded days and months), the recorder logs and
returns without raising — there is no `InvalidDateError` anywhere in the
code — and the persisted ledger is left exactly as it was. -/
theorem invalid_payment_date_no_mutation (key : Nat) (file : Option Ciphertext)
    (d nowDate nowTs : String) (hp : strptimeDMY d = none) :
    record_zakat_payment key file (some d) nowDate nowTs = (file, false) := by
  simp [record_zakat_payment, hp]

/-- C9 witness: an ISO-formatted string is rejected with the store unchanged. -/
theorem invalid_payment_date_witness :
    strptimeDMY "2025-01-31" = none
    ∧ record_zakat_payment 1 none (some "2025-01-31") "x" "y" = (none, false) :=
  ⟨by decide, invalid_payment_date_no_mutation 1 none "2025-01-31" "x" "y" (by decide)⟩

/-- C10: with no enabled override passed to the engine, the reported
`consecutive_months_above_nisab` never exceeds the 24-entry history cap,
because the ledger is truncated to `MAX_HISTORY_MONTHS` entries before the
replay. -/
theorem streak_bounded_by_history_cap
    (history : List Entry) (total_assets nisab_threshold : ℚ)
    (current_date : DateInfo) (bank_balance additional_assets : ℚ) (now : String) :
    (checkHijriYearThreshold history total_assets nisab_threshold current_date
        bank_balance additional_assets none now).1.consecutive_months_above_nisab
      ≤ MAX_HISTORY_MONTHS := by
  show applyOverride none _ ≤ _
  rw [show ∀ n, applyOverride none n = n from fun _ => rfl]
  calc countConsecutiveMonths (sortByTimestamp (updateLedger history _))
      ≤ (sortByTimestamp (updateLedger history _)).length :=
        countConsecutiveMonths_le_length _
    _ = (updateLedger history _).length := length_sortByTimestamp _
    _ ≤ MAX_HISTORY_MONTHS := length_updateLedger_le _ _
